import Mathlib

/-!
Verification development for the document-synchronization core of a small
language server.  The source consists of two Rust files:

* `src/document.rs` — `TextDocument` owning a `ropey::Rope` and an optional
  tree-sitter `Tree`, with `apply_content_change` translating LSP positions
  (under a session position encoding) into rope/byte offsets and tree-sitter
  `InputEdit`s;
* `src/main.rs` — the `Backend` LSP handlers (`did_open`, `did_close`,
  `did_change`) over a `HashMap<String, DocumentState>` store.

The rope is modelled as a `List Char` (a sequence of Unicode scalar values),
and the ropey operations used by the source are modelled with ropey's
documented semantics: index-conversion queries floor an index that falls
inside a multi-unit character to the containing character, and the fallible
`try_*` variants fail exactly when the index exceeds the total length in the
corresponding unit.  Operations that panic in Rust when an index is out of
bounds are modelled with `Option` (`none` = panic).  Line breaks are modelled
as LF.  The external tree-sitter parser is modelled as an explicit parameter
`parse : List Char → Option τ → Option τ` (text, reuse hint) together with a
tree-edit function `editTree : τ → InputEdit → τ`, for an arbitrary tree
type `τ`.
-/

namespace Cql

/-- UTF-8 byte length of a character sequence (`str::len` / ropey byte count). -/
def byteLen (s : List Char) : Nat := (s.map Char.utf8Size).sum

/-- Number of UTF-16 code units that encode one scalar value. -/
def utf16SizeC (c : Char) : Nat := if c.val < 0x10000 then 1 else 2

/-- UTF-16 code-unit length of a character sequence. -/
def utf16Len (s : List Char) : Nat := (s.map utf16SizeC).sum

/-- Split a text into its lines, each line keeping its trailing LF; there is
always a final (possibly empty) line, so a text has (number of LFs) + 1
lines, as in ropey. -/
def splitLines : List Char → List (List Char)
  | [] => [[]]
  | c :: rest =>
    if c = '\n' then
      ['\n'] :: splitLines rest
    else
      match splitLines rest with
      | l :: ls => (c :: l) :: ls
      | [] => [[c]]

/-- Model of `Rope::get_line`: the i-th line, `none` when `i ≥ len_lines`. -/
def getLine (s : List Char) (i : Nat) : Option (List Char) :=
  (splitLines s).get? i

/-- Model of `Rope::line_to_char`: character offset of the start of line `i`
(only used at indices where `getLine` succeeded). -/
def lineToChar (s : List Char) (i : Nat) : Nat :=
  (((splitLines s).take i).map List.length).sum

/-- Model of `Rope::char_to_byte`: byte offset of character `c`; `none` models the
ropey panic when `c` exceeds the character count. -/
def charToByte (s : List Char) (c : Nat) : Option Nat :=
  if c ≤ s.length then some (byteLen (s.take c)) else none

/-- Number of line breaks that lie entirely within the first `b` bytes:
ropey's `byte_to_line` for an in-bounds byte index. -/
def byteToLineAux : List Char → Nat → Nat
  | [], _ => 0
  | c :: rest, b =>
    if c.utf8Size ≤ b then
      (if c = '\n' then 1 else 0) + byteToLineAux rest (b - c.utf8Size)
    else 0

/-- Model of `Rope::byte_to_line`; `none` models the ropey panic when `b` exceeds the
byte count. -/
def byteToLine (s : List Char) (b : Nat) : Option Nat :=
  if b ≤ byteLen s then some (byteToLineAux s b) else none

/-- Model of `Rope::remove(a..b)`: delete characters in `[a, b)`; `none` models the
ropey panic when `a > b` or `b` exceeds the character count. -/
def removeRange (s : List Char) (a b : Nat) : Option (List Char) :=
  if a ≤ b ∧ b ≤ s.length then some (s.take a ++ s.drop b) else none

/-- Model of `Rope::insert(c, t)`; `none` models the ropey panic when `c` exceeds the
character count. -/
def insertAt (s : List Char) (c : Nat) (t : List Char) : Option (List Char) :=
  if c ≤ s.length then some (s.take c ++ t ++ s.drop c) else none

/-- Character index of the character containing byte `b` (ropey floors a byte
index that falls inside a multi-byte character). -/
def byteToCharFloor : List Char → Nat → Nat
  | [], _ => 0
  | c :: rest, b =>
    if c.utf8Size ≤ b then 1 + byteToCharFloor rest (b - c.utf8Size) else 0

/-- Model of `RopeSlice::try_byte_to_char`: fails exactly when the byte index exceeds
the slice's byte length, otherwise floors to the containing character. -/
def tryByteToChar (s : List Char) (b : Nat) : Option Nat :=
  if b ≤ byteLen s then some (byteToCharFloor s b) else none

/-- Character index of the character containing UTF-16 code unit `u` (ropey
floors an index that falls inside a surrogate pair). -/
def utf16ToCharFloor : List Char → Nat → Nat
  | [], _ => 0
  | c :: rest, u =>
    if utf16SizeC c ≤ u then 1 + utf16ToCharFloor rest (u - utf16SizeC c) else 0

/-- Model of `RopeSlice::try_utf16_cu_to_char`: fails exactly when the code-unit index
exceeds the slice's UTF-16 length, otherwise floors to the containing
character. -/
def tryUtf16CuToChar (s : List Char) (u : Nat) : Option Nat :=
  if u ≤ utf16Len s then some (utf16ToCharFloor s u) else none

/-- Model of `RopeSlice::char_to_utf16_cu`; `none` models the ropey panic when the
character index exceeds the character count. -/
def charToUtf16Cu (s : List Char) (c : Nat) : Option Nat :=
  if c ≤ s.length then some (utf16Len (s.take c)) else none

/-! ### Data model of `src/document.rs` -/

/-- Model of `lsp_types::Position` (line and character are `u32` in the source; all
claims are about values, not overflow, so they are modelled as `Nat`). -/
structure Position where
  line : Nat
  character : Nat
  deriving DecidableEq, Repr

/-- Model of `lsp_types::Range` (`end` is a Lean keyword, so that field is `endPos`). -/
structure Range where
  start : Position
  endPos : Position
  deriving DecidableEq, Repr

/-- Model of `lsp_types::TextDocumentContentChangeEvent` (the `range_length` field is
unused by the source and omitted). -/
structure ChangeEvent where
  range : Option Range
  text : List Char
  deriving DecidableEq, Repr

/-- Error type `DocumentError` from `src/document.rs`. -/
inductive DocumentError where
  | PositionOutOfBounds (line : Nat) (unit : Nat)
  deriving DecidableEq, Repr

/-- Encoding type `PositionEncodingKind` from `src/document.rs`. -/
inductive PositionEncodingKind where
  | UTF8
  | UTF16
  | UTF32
  deriving DecidableEq, Repr

/-- Model of `tree_sitter::Point` (row, column). -/
structure Point where
  row : Nat
  column : Nat
  deriving DecidableEq, Repr

/-- Model of `tree_sitter::InputEdit`. -/
structure InputEdit where
  start_byte : Nat
  old_end_byte : Nat
  new_end_byte : Nat
  start_position : Point
  old_end_position : Point
  new_end_position : Point
  deriving DecidableEq, Repr

/-- Model of the `TextDocument` struct (fields `rope` and `tree`) over an abstract tree type `τ` (the parser
handle carries no observable state and is modelled by the `parse` argument of
the operations). -/
structure TextDocument (τ : Type) where
  rope : List Char
  tree : Option τ
  deriving DecidableEq, Repr

/-- Outcome of `apply_content_change`: `ok` with the updated document, `err`
with the returned `DocumentError` and the document as the method left it
(`&mut self` keeps its mutations on early return), or `panic` with the
document state at the moment of the Rust panic. -/
inductive ApplyResult (τ : Type) where
  | ok : TextDocument τ → ApplyResult τ
  | err : DocumentError → TextDocument τ → ApplyResult τ
  | panic : TextDocument τ → ApplyResult τ
  deriving DecidableEq, Repr

/-- The nested `compute_char_idx` function of `apply_content_change`:
position-to-character-offset resolution within one line slice, per encoding. -/
def compute_char_idx (position_encoding : PositionEncodingKind)
    (position : Position) (slice : List Char) : Except DocumentError Nat :=
  let r :=
    match position_encoding with
    | .UTF8 => tryByteToChar slice position.character
    | .UTF16 => tryUtf16CuToChar slice position.character
    | .UTF32 => some position.character
  match r with
  | some n => .ok n
  | none => .error (.PositionOutOfBounds position.line position.character)

/-- Model of `TextDocument::new`: builds the rope and parses the text with no reuse
hint; the source unwraps the parser result with `expect`, so a parser that
produces no tree is a panic (`none`). -/
def TextDocument.new {τ : Type} (parse : List Char → Option τ → Option τ)
    (text : List Char) : Option (TextDocument τ) :=
  match parse text none with
  | some tree => some ⟨text, some tree⟩
  | none => none

/-- Model of `TextDocument::apply_content_change` from `src/document.rs`, translated
step by step.  `parse` and `editTree` model the tree-sitter parser
(`Parser::parse` with an optional reuse hint, unwrapped with `expect` on the
incremental path) and `Tree::edit`.  Every early `return Err(...)` carries the
document as it stands at that point, and every Rust panic (the ordering
`assert!` and the panicking ropey index conversions) becomes `.panic` with
the document as it stands at that point. -/
def apply_content_change {τ : Type} (parse : List Char → Option τ → Option τ)
    (editTree : τ → InputEdit → τ) (doc : TextDocument τ)
    (change : ChangeEvent) (position_encoding : PositionEncodingKind) :
    ApplyResult τ :=
  match change.range with
  | some range =>
    -- assert!(start.line < end.line || (start.line == end.line && start.character <= end.character))
    if ¬ (range.start.line < range.endPos.line ∨
          (range.start.line = range.endPos.line ∧
           range.start.character ≤ range.endPos.character)) then
      .panic doc
    else
      let same_line := range.start.line = range.endPos.line
      let same_character := range.start.character = range.endPos.character
      let change_start_line_cu_idx := range.start.line
      let change_end_line_cu_idx := range.start.line
      -- 1. line at which the change starts
      let change_start_line_idx := range.start.line
      match getLine doc.rope change_start_line_idx with
      | none => .err (.PositionOutOfBounds range.start.line range.start.character) doc
      | some change_start_line =>
        -- 2. line at which the change ends
        let change_end_line_idx := range.endPos.line
        match
          (if same_line then some change_start_line
           else getLine doc.rope change_end_line_idx) with
        | none => .err (.PositionOutOfBounds range.endPos.line range.endPos.character) doc
        | some change_end_line =>
          -- 3. character offset into the start/end line
          match compute_char_idx position_encoding range.start change_start_line with
          | .error e => .err e doc
          | .ok change_start_line_char_idx =>
            match
              (if same_line ∧ same_character then .ok change_start_line_char_idx
               else compute_char_idx position_encoding range.endPos change_end_line) with
            | .error e => .err e doc
            | .ok change_end_line_char_idx =>
              -- 4. character and byte offset into the document
              let change_start_doc_char_idx :=
                lineToChar doc.rope change_start_line_idx + change_start_line_char_idx
              let change_end_doc_char_idx :=
                if same_line ∧ same_character then change_start_doc_char_idx
                else lineToChar doc.rope change_end_line_idx + change_end_line_char_idx
              match charToByte doc.rope change_start_doc_char_idx with
              | none => .panic doc
              | some change_start_doc_byte_idx =>
                match
                  (if same_line ∧ same_character then some change_start_doc_byte_idx
                   else charToByte doc.rope change_end_doc_char_idx) with
                | none => .panic doc
                | some change_end_doc_byte_idx =>
                  -- 5. byte offset into the start/end line (for tree-sitter)
                  match
                    (match position_encoding with
                     | .UTF8 => some change_start_line_cu_idx
                     | .UTF16 => charToUtf16Cu change_end_line change_start_line_char_idx
                     | .UTF32 => some change_start_line_char_idx) with
                  | none => .panic doc
                  | some change_start_line_byte_idx =>
                    match
                      (if same_line ∧ same_character then some change_start_line_byte_idx
                       else
                         match position_encoding with
                         | .UTF8 => some change_end_line_cu_idx
                         | .UTF16 => charToUtf16Cu change_end_line change_end_line_char_idx
                         | .UTF32 => some change_end_line_char_idx) with
                    | none => .panic doc
                    | some change_end_line_byte_idx =>
                      match removeRange doc.rope change_start_doc_char_idx
                          change_end_doc_char_idx with
                      | none => .panic doc
                      | some rope1 =>
                        match insertAt rope1 change_start_doc_char_idx change.text with
                        | none => .panic ⟨rope1, doc.tree⟩
                        | some rope2 =>
                          match doc.tree with
                          | none => .ok ⟨rope2, none⟩
                          | some tree =>
                            -- 6. byte index for the new end (after the mutation)
                            match byteToLine rope2
                                (change_start_doc_byte_idx + byteLen change.text) with
                            | none => .panic ⟨rope2, some tree⟩
                            | some change_new_end_line_idx =>
                              let change_new_end_line_byte_idx :=
                                change_start_doc_byte_idx + byteLen change.text
                              -- 7. the tree-sitter edit
                              let edit : InputEdit :=
                                { start_byte := change_start_doc_byte_idx
                                  old_end_byte := change_end_doc_byte_idx
                                  new_end_byte := change_start_doc_byte_idx + byteLen change.text
                                  start_position :=
                                    ⟨change_start_line_idx, change_start_line_byte_idx⟩
                                  old_end_position :=
                                    ⟨change_end_line_idx, change_end_line_byte_idx⟩
                                  new_end_position :=
                                    ⟨change_new_end_line_idx, change_new_end_line_byte_idx⟩ }
                              let tree1 := editTree tree edit
                              match parse rope2 (some tree1) with
                              | none => .panic ⟨rope2, some tree1⟩
                              | some newTree => .ok ⟨rope2, some newTree⟩
  | none =>
    .ok ⟨change.text, parse change.text none⟩

/-! ### Data model of `src/main.rs` -/

/-- Model of `DocumentState` from `src/main.rs` (the per-document
`Parser` handle is modelled by the `parse` argument of the handlers). -/
structure DocumentState (τ : Type) where
  tree : Option τ
  text : List Char
  deriving DecidableEq, Repr

/-- The `Backend.documents` map, `HashMap<String, DocumentState>`, modelled as
an association list with at most one entry per key. -/
def Store (τ : Type) := List (String × DocumentState τ)

instance {τ : Type} [DecidableEq τ] : DecidableEq (Store τ) :=
  inferInstanceAs (DecidableEq (List (String × DocumentState τ)))

/-- Model of `HashMap::get` / `get_mut`: first entry with the given key. -/
def Store.find {τ : Type} (store : Store τ) (uri : String) :
    Option (DocumentState τ) :=
  match store with
  | [] => none
  | (k, v) :: rest => if k = uri then some v else Store.find rest uri

/-- In-place mutation through `get_mut`: replace the value of the entry with
the given key, leaving the store unchanged when the key is absent. -/
def Store.update {τ : Type} (store : Store τ) (uri : String)
    (v : DocumentState τ) : Store τ :=
  match store with
  | [] => []
  | (k, w) :: rest =>
    if k = uri then (k, v) :: rest else (k, w) :: Store.update rest uri v

/-- Outcome of `Backend::did_change`: the (possibly unchanged) store, or a
Rust panic. -/
inductive DidChangeResult (τ : Type) where
  | ok : Store τ → DidChangeResult τ
  | panic : DidChangeResult τ
  deriving DecidableEq

/-- Model of `Backend::did_change` from `src/main.rs`: a call with more than one
change event only logs and returns; otherwise the handler reads
`content_changes[0]` (a panic when the list is empty) before looking the
document up; when the uri is present it re-parses the event's text from
scratch, logs the new tree through `Option::unwrap` (a panic when the parser
produced no tree) and replaces the document's tree and text wholesale. -/
def did_change {τ : Type} (parse : List Char → Option τ → Option τ)
    (store : Store τ) (uri : String) (content_changes : List ChangeEvent) :
    DidChangeResult τ :=
  if content_changes.length > 1 then
    .ok store
  else
    match content_changes.get? 0 with
    | none => .panic
    | some ev =>
      let content := ev.text
      match Store.find store uri with
      | none => .ok store
      | some _doc =>
        let new_tree := parse content none
        match new_tree with
        | none => .panic
        | some _ =>
          .ok (Store.update store uri ⟨new_tree, content⟩)

/-! ### Character-to-unit conversions used to state the codec round trip -/

/-- Character-to-unit conversion as the round-trip claim words it: identity
for the byte convention, UTF-16 code-unit counting for the 16-bit convention,
the buffer's character-to-byte mapping for the codepoint convention. -/
def claimCharToUnit : PositionEncodingKind → List Char → Nat → Nat
  | .UTF8, _, c => c
  | .UTF16, line, c => utf16Len (line.take c)
  | .UTF32, line, c => byteLen (line.take c)

/-- Character-to-unit conversion that inverts `compute_char_idx`: the line's
character-to-byte mapping for the byte convention, UTF-16 code-unit counting
(the rope's `char_to_utf16_cu`) for the 16-bit convention, and identity for
the codepoint convention. -/
def charToUnitOfEncoding : PositionEncodingKind → List Char → Nat → Nat
  | .UTF8, line, c => byteLen (line.take c)
  | .UTF16, line, c => utf16Len (line.take c)
  | .UTF32, _, c => c

/-! ### Helper lemmas -/

theorem byteLen_append (a b : List Char) :
    byteLen (a ++ b) = byteLen a + byteLen b := by
  simp [byteLen]

theorem byteLen_take_le (s : List Char) (c : Nat) :
    byteLen (s.take c) ≤ byteLen s := by
  conv_rhs => rw [← List.take_append_drop c s]
  rw [byteLen_append]
  omega

theorem utf16Len_append (a b : List Char) :
    utf16Len (a ++ b) = utf16Len a + utf16Len b := by
  simp [utf16Len]

theorem utf16Len_take_le (s : List Char) (c : Nat) :
    utf16Len (s.take c) ≤ utf16Len s := by
  conv_rhs => rw [← List.take_append_drop c s]
  rw [utf16Len_append]
  omega

theorem utf16SizeC_pos (c : Char) : 0 < utf16SizeC c := by
  unfold utf16SizeC
  split <;> decide

theorem byteToCharFloor_byteLen_take (s : List Char) (c : Nat)
    (h : c ≤ s.length) : byteToCharFloor s (byteLen (s.take c)) = c := by
  induction s generalizing c with
  | nil =>
    have hc : c = 0 := by simpa using h
    subst hc
    rfl
  | cons x rest ih =>
    cases c with
    | zero =>
      have hx := Char.utf8Size_pos x
      simp only [List.take_zero, byteLen, List.map_nil, List.sum_nil,
        byteToCharFloor]
      rw [if_neg (by omega)]
    | succ n =>
      have hn : n ≤ rest.length := by simpa using h
      simp only [List.take_succ_cons, byteToCharFloor]
      have hb : byteLen (x :: rest.take n) = x.utf8Size + byteLen (rest.take n) := by
        simp [byteLen]
      rw [hb, if_pos (by omega), Nat.add_sub_cancel_left, ih n hn]
      omega

theorem utf16ToCharFloor_utf16Len_take (s : List Char) (c : Nat)
    (h : c ≤ s.length) : utf16ToCharFloor s (utf16Len (s.take c)) = c := by
  induction s generalizing c with
  | nil =>
    have hc : c = 0 := by simpa using h
    subst hc
    rfl
  | cons x rest ih =>
    cases c with
    | zero =>
      have hx := utf16SizeC_pos x
      simp only [List.take_zero, utf16Len, List.map_nil, List.sum_nil,
        utf16ToCharFloor]
      rw [if_neg (by omega)]
    | succ n =>
      have hn : n ≤ rest.length := by simpa using h
      simp only [List.take_succ_cons, utf16ToCharFloor]
      have hb : utf16Len (x :: rest.take n) = utf16SizeC x + utf16Len (rest.take n) := by
        simp [utf16Len]
      rw [hb, if_pos (by omega), Nat.add_sub_cancel_left, ih n hn]
      omega

/-! ### Claim theorems -/

/-- Claim C3, counterexample: under the byte convention an offset splitting
the two-byte character é, and under the 16-bit convention an offset
addressing the second unit of the surrogate pair encoding U+10400, are both
accepted (floored to character 0) and the change is applied, instead of
failing with `OutOfBounds` as the claim states. -/
theorem C3_counterexample :
    apply_content_change (τ := Nat) (fun _ t => t) (fun t _ => t)
        ⟨['é'], some 0⟩ ⟨some ⟨⟨0, 1⟩, ⟨0, 1⟩⟩, ['x']⟩ .UTF8
      = .ok ⟨['x', 'é'], some 0⟩ ∧
    apply_content_change (τ := Nat) (fun _ t => t) (fun t _ => t)
        ⟨['𐐀'], some 0⟩ ⟨some ⟨⟨0, 1⟩, ⟨0, 1⟩⟩, ['x']⟩ .UTF16
      = .ok ⟨['x', '𐐀'], some 0⟩ ∧
    compute_char_idx .UTF8 ⟨0, 1⟩ ['é'] = .ok 0 ∧
    compute_char_idx .UTF16 ⟨0, 1⟩ ['𐐀'] = .ok 0 :=
  ⟨rfl, rfl, rfl, rfl⟩

/-- Claim C3 as amended: position-to-character resolution fails with
`OutOfBounds` exactly when the unit offset exceeds the line's total length in
units of the convention (bytes, or 16-bit code units); a unit offset that
lands inside a multi-byte character or a surrogate pair is within bounds and
is resolved to the index of the character containing it, not rejected. -/
theorem C3_amended_out_of_bounds_iff_beyond_length (pos : Position)
    (slice : List Char) :
    (compute_char_idx .UTF8 pos slice
        = .error (.PositionOutOfBounds pos.line pos.character) ↔
      byteLen slice < pos.character) ∧
    (compute_char_idx .UTF16 pos slice
        = .error (.PositionOutOfBounds pos.line pos.character) ↔
      utf16Len slice < pos.character) := by
  constructor <;>
    · simp only [compute_char_idx, tryByteToChar, tryUtf16CuToChar]
      split <;> simp_all

/-- Claim C7, counterexample: with the claim's own character-to-unit
conversions (identity for the byte convention, the character-to-byte mapping
for the codepoint convention), the round trip on the line "éa" at character
offset 1 does not return 1: under the byte convention the unit offset 1
resolves back to character 0, and under the codepoint convention the unit
offset is the byte offset 2, which resolves back to character 2. -/
theorem C7_counterexample :
    compute_char_idx .UTF8 ⟨0, claimCharToUnit .UTF8 ['é', 'a'] 1⟩ ['é', 'a']
      = .ok 0 ∧
    compute_char_idx .UTF32 ⟨0, claimCharToUnit .UTF32 ['é', 'a'] 1⟩ ['é', 'a']
      = .ok 2 ∧
    (0 : Nat) ≠ 1 ∧ (2 : Nat) ≠ 1 :=
  ⟨rfl, rfl, by decide, by decide⟩

/-- Claim C7 as amended: for every line and every character offset `c` within
it, converting `c` to a unit offset with the conversion that matches the
convention — the character-to-byte mapping for the byte convention, UTF-16
code-unit counting for the 16-bit convention, identity for the codepoint
convention — and resolving that unit offset back through
`compute_char_idx` under the same convention yields `c`. -/
theorem C7_amended_roundtrip (enc : PositionEncodingKind) (line : List Char)
    (l c : Nat) (hc : c ≤ line.length) :
    compute_char_idx enc ⟨l, charToUnitOfEncoding enc line c⟩ line = .ok c := by
  cases enc with
  | UTF8 =>
    simp only [compute_char_idx, charToUnitOfEncoding, tryByteToChar]
    rw [if_pos (byteLen_take_le line c), byteToCharFloor_byteLen_take line c hc]
  | UTF16 =>
    simp only [compute_char_idx, charToUnitOfEncoding, tryUtf16CuToChar]
    rw [if_pos (utf16Len_take_le line c), utf16ToCharFloor_utf16Len_take line c hc]
  | UTF32 => rfl

/-- Witness for C7's amended round trip on the line "éa" at character
offset 2 under the byte convention. -/
theorem C7_amended_roundtrip_witness :
    compute_char_idx .UTF8 ⟨0, charToUnitOfEncoding .UTF8 ['é', 'a'] 2⟩ ['é', 'a']
      = .ok 2 :=
  C7_amended_roundtrip .UTF8 ['é', 'a'] 0 2 (by decide)

/-- Claim C8: a change with no range is a full replacement — whatever the
prior buffer and tree, the buffer becomes exactly the change's text and the
tree the result of parsing that text from scratch with no reuse hint. -/
theorem C8_full_replace {τ : Type} (parse : List Char → Option τ → Option τ)
    (editTree : τ → InputEdit → τ) (doc : TextDocument τ)
    (change : ChangeEvent) (enc : PositionEncodingKind)
    (h : change.range = none) :
    apply_content_change parse editTree doc change enc
      = .ok ⟨change.text, parse change.text none⟩ := by
  unfold apply_content_change
  rw [h]

/-- Witness for C8 at a concrete document and replacement text. -/
theorem C8_full_replace_witness :
    apply_content_change (τ := Nat) (fun t _ => some t.length) (fun t _ => t)
        ⟨['a', 'b'], some 5⟩ ⟨none, ['x', 'y', 'z']⟩ .UTF16
      = .ok ⟨['x', 'y', 'z'], some 3⟩ :=
  C8_full_replace (fun t _ => some t.length) (fun t _ => t)
    ⟨['a', 'b'], some 5⟩ ⟨none, ['x', 'y', 'z']⟩ .UTF16 rfl

/-- Claim C10: `did_change` reads `content_changes[0]` before looking the
document up, so a call with an empty change-event list panics on the index,
whatever the store and uri (open, closed, or never opened). -/
theorem C10_empty_change_list_panics {τ : Type}
    (parse : List Char → Option τ → Option τ) (store : Store τ) (uri : String) :
    did_change parse store uri ([] : List ChangeEvent) = .panic := rfl

/-- Claim C9, counterexample: a change call with an empty change-event list
on an id that was never opened (empty store) is not silently ignored — it
panics on the out-of-bounds index `content_changes[0]`. -/
theorem C9_counterexample :
    did_change (τ := Nat) (fun _ _ => none) [] "u" [] = .panic := rfl

/-- Claim C9 as amended: for every change call carrying a non-empty
change-event list whose document identifier is not present in the store, the
call is silently ignored — the store is returned unchanged and no error is
raised; with an empty event list the handler instead panics on indexing
element 0. -/
theorem C9_amended_unknown_id_ignored {τ : Type}
    (parse : List Char → Option τ → Option τ) (store : Store τ) (uri : String)
    (ev : ChangeEvent) (rest : List ChangeEvent)
    (h : Store.find store uri = none) :
    did_change parse store uri (ev :: rest) = .ok store := by
  unfold did_change
  cases rest with
  | nil => simp [h]
  | cons e2 r => simp

/-- Witness for C9's amended statement: one full-replace event for an id
absent from a one-entry store leaves the store unchanged. -/
theorem C9_amended_unknown_id_ignored_witness :
    did_change (τ := Nat) (fun _ _ => some 0)
        [("v", ⟨some 0, ['a']⟩)] "u" [⟨none, ['b']⟩]
      = .ok [("v", ⟨some 0, ['a']⟩)] :=
  C9_amended_unknown_id_ignored (fun _ _ => some 0)
    [("v", ⟨some 0, ['a']⟩)] "u" ⟨none, ['b']⟩ [] (by decide)

/-- Claim C5: an incremental change whose range has start positioned after
end (start line greater than end line, or same line with start unit offset
greater than end unit offset) trips the ordering assertion before any
mutation: the call panics with the buffer and tree exactly as they were
before the call. -/
theorem C5_start_after_end_rejected {τ : Type}
    (parse : List Char → Option τ → Option τ) (editTree : τ → InputEdit → τ)
    (doc : TextDocument τ) (change : ChangeEvent) (range : Range)
    (enc : PositionEncodingKind) (hr : change.range = some range)
    (h : range.endPos.line < range.start.line ∨
         (range.start.line = range.endPos.line ∧
          range.endPos.character < range.start.character)) :
    apply_content_change parse editTree doc change enc = .panic doc := by
  have hc : ¬ (range.start.line < range.endPos.line ∨
      (range.start.line = range.endPos.line ∧
       range.start.character ≤ range.endPos.character)) := by omega
  simp only [apply_content_change, hr]
  rw [if_pos hc]

/-- Witness for C5 on a same-line range with start character 2 and end
character 1. -/
theorem C5_start_after_end_rejected_witness :
    apply_content_change (τ := Nat) (fun _ t => t) (fun t _ => t)
        ⟨['a', 'b'], some 0⟩ ⟨some ⟨⟨0, 2⟩, ⟨0, 1⟩⟩, []⟩ .UTF32
      = .panic ⟨['a', 'b'], some 0⟩ :=
  C5_start_after_end_rejected (fun _ t => t) (fun t _ => t)
    ⟨['a', 'b'], some 0⟩ ⟨some ⟨⟨0, 2⟩, ⟨0, 1⟩⟩, []⟩ ⟨⟨0, 2⟩, ⟨0, 1⟩⟩ .UTF32
    rfl (Or.inr ⟨rfl, by decide⟩)

/-- Claim C2, evaluation at the failing input: on the buffer "ab\ncd\n" under
the byte convention, inserting "x" at position (1,0), the tree-sitter edit
the source hands to `Tree::edit` (observed by instantiating the tree type
with `InputEdit` itself) carries start and old-end columns equal to 1 — the
range's start line number, not the in-line byte offset 0 of the boundary —
and a new-end column of 4, the document byte offset of the new end, not its
in-line byte offset 1 within line 1. -/
theorem C2_input_edit_columns_eval :
    apply_content_change (τ := InputEdit) (fun _ h => h) (fun _ e => e)
        ⟨"ab\ncd\n".toList, some ⟨0, 0, 0, ⟨0, 0⟩, ⟨0, 0⟩, ⟨0, 0⟩⟩⟩
        ⟨some ⟨⟨1, 0⟩, ⟨1, 0⟩⟩, "x".toList⟩ .UTF8
      = .ok ⟨"ab\nxcd\n".toList,
          some ⟨3, 3, 4, ⟨1, 1⟩, ⟨1, 1⟩, ⟨1, 4⟩⟩⟩ := rfl

/-- Claim C4, counterexample: a change call carrying two events on an open
document applies neither of them — `did_change` returns early and the store
is unchanged, with the document text still "a" rather than the "c" that
applying the events sequentially would leave. -/
theorem C4_counterexample :
    did_change (τ := Nat) (fun _ _ => some 0) [("u", ⟨some 0, ['a']⟩)] "u"
        [⟨none, ['b']⟩, ⟨none, ['c']⟩]
      = .ok [("u", ⟨some 0, ['a']⟩)] ∧
    ([("u", (⟨some 0, ['a']⟩ : DocumentState Nat))] : Store Nat)
      ≠ [("u", ⟨some 0, ['c']⟩)] :=
  ⟨rfl, by decide⟩

/-- Claim C4 as amended: a change call with exactly one event on an open
document replaces that document's text wholesale with the event's text (the
range is ignored) and its tree with a fresh parse of that text; a call with
more than one event applies none of them and leaves the store unchanged. -/
theorem C4_amended_single_event_full_replace :
    (∀ (τ : Type) (parse : List Char → Option τ → Option τ) (store : Store τ)
        (uri : String) (ev : ChangeEvent) (doc : DocumentState τ) (t : τ),
        Store.find store uri = some doc → parse ev.text none = some t →
        did_change parse store uri [ev]
          = .ok (Store.update store uri ⟨some t, ev.text⟩)) ∧
    (∀ (τ : Type) (parse : List Char → Option τ → Option τ) (store : Store τ)
        (uri : String) (e₁ e₂ : ChangeEvent) (rest : List ChangeEvent),
        did_change parse store uri (e₁ :: e₂ :: rest) = .ok store) := by
  constructor
  · intro τ parse store uri ev doc t hfind hparse
    unfold did_change
    simp [hfind, hparse]
  · intro τ parse store uri e₁ e₂ rest
    unfold did_change
    simp

/-- Witness for C4's amended statement: one event replaces the open
document's text and tree; two events are ignored. -/
theorem C4_amended_single_event_full_replace_witness :
    did_change (τ := Nat) (fun _ _ => some 7) [("u", ⟨some 0, ['a']⟩)] "u"
        [⟨none, ['b']⟩]
      = .ok (Store.update [("u", ⟨some 0, ['a']⟩)] "u" ⟨some 7, ['b']⟩) ∧
    did_change (τ := Nat) (fun _ _ => some 7) [("u", ⟨some 0, ['a']⟩)] "u"
        [⟨none, ['b']⟩, ⟨none, ['c']⟩]
      = .ok [("u", ⟨some 0, ['a']⟩)] :=
  ⟨C4_amended_single_event_full_replace.1 Nat (fun _ _ => some 7)
      [("u", ⟨some 0, ['a']⟩)] "u" ⟨none, ['b']⟩ ⟨some 0, ['a']⟩ 7 (by decide) rfl,
   C4_amended_single_event_full_replace.2 Nat (fun _ _ => some 7)
      [("u", ⟨some 0, ['a']⟩)] "u" ⟨none, ['b']⟩ ⟨none, ['c']⟩ []⟩

/-- Claim C1: whenever an incremental `apply_content_change` returns an
`OutOfBounds` error — every error it can return comes from a line lookup or a
position-to-character-offset resolution — the document it leaves behind is
exactly the one it was called with: every fallible resolution completes
before the rope or the tree is mutated. -/
theorem C1_error_leaves_document_unchanged {τ : Type}
    (parse : List Char → Option τ → Option τ) (editTree : τ → InputEdit → τ)
    (doc : TextDocument τ) (change : ChangeEvent) (enc : PositionEncodingKind)
    (e : DocumentError) (d : TextDocument τ)
    (h : apply_content_change parse editTree doc change enc = .err e d) :
    d = doc := by
  simp only [apply_content_change] at h
  repeat' split at h
  all_goals
    first
      | exact ApplyResult.noConfusion h
      | (injection h with h1 h2; exact h2.symm)

/-- Witness for C1 on a document with one line and a change whose range
names line 5, which does not exist. -/
theorem C1_error_leaves_document_unchanged_witness :
    (⟨['a'], some 0⟩ : TextDocument Nat) = ⟨['a'], some 0⟩ :=
  C1_error_leaves_document_unchanged (fun _ t => t) (fun t _ => t)
    ⟨['a'], some 0⟩ ⟨some ⟨⟨5, 0⟩, ⟨6, 0⟩⟩, []⟩ .UTF16
    (.PositionOutOfBounds 5 0) ⟨['a'], some 0⟩ rfl

/-- Claim C6, counterexample: a parser that produces no tree is fatal to
`TextDocument::new` (the `expect` panics instead of leaving the document in
the no-tree state) and to the incremental path of `apply_content_change`
(the re-parse `expect` panics after the buffer mutation). -/
theorem C6_counterexample :
    TextDocument.new (τ := Nat) (fun _ _ => none) ['x'] = none ∧
    apply_content_change (τ := Nat) (fun _ _ => none) (fun t _ => t)
        ⟨['a'], some 0⟩ ⟨some ⟨⟨0, 0⟩, ⟨0, 0⟩⟩, ['b']⟩ .UTF32
      = .panic ⟨['b', 'a'], some 0⟩ :=
  ⟨rfl, rfl⟩

/-- Claim C6 as amended: only the full-replace path of
`apply_content_change` tolerates the external parser failing to produce a
tree, completing normally and leaving the document in the no-tree state;
`TextDocument::new` panics when the initial parse produces no tree, and the
incremental path with a tree present never completes normally when the
re-parse produces no tree. -/
theorem C6_amended_no_tree_tolerance :
    (∀ (τ : Type) (parse : List Char → Option τ → Option τ) (text : List Char),
        parse text none = none → TextDocument.new parse text = none) ∧
    (∀ (τ : Type) (parse : List Char → Option τ → Option τ)
        (editTree : τ → InputEdit → τ) (doc : TextDocument τ)
        (text : List Char) (enc : PositionEncodingKind),
        apply_content_change parse editTree doc ⟨none, text⟩ enc
          = .ok ⟨text, parse text none⟩) ∧
    (∀ (τ : Type) (parse : List Char → Option τ → Option τ)
        (editTree : τ → InputEdit → τ) (doc : TextDocument τ)
        (change : ChangeEvent) (range : Range) (enc : PositionEncodingKind)
        (d : TextDocument τ),
        change.range = some range → doc.tree.isSome →
        (∀ s h, parse s h = none) →
        apply_content_change parse editTree doc change enc ≠ .ok d) := by
  refine ⟨?_, ?_, ?_⟩
  · intro τ parse text hp
    unfold TextDocument.new
    rw [hp]
  · intro τ parse editTree doc text enc
    rfl
  · intro τ parse editTree doc change range enc d hr ht hp h
    simp only [apply_content_change, hr] at h
    repeat' split at h
    all_goals first
      | exact ApplyResult.noConfusion h
      | simp_all

/-- Witness for C6's amended statement with an always-failing parser: `new`
panics, a full replace completes with no tree, and an incremental change on a
document with a tree never completes normally. -/
theorem C6_amended_no_tree_tolerance_witness :
    TextDocument.new (τ := Nat) (fun _ _ => none) ['x'] = none ∧
    apply_content_change (τ := Nat) (fun _ _ => none) (fun t _ => t)
        ⟨['a'], some 0⟩ ⟨none, ['b']⟩ .UTF32 = .ok ⟨['b'], none⟩ ∧
    apply_content_change (τ := Nat) (fun _ _ => none) (fun t _ => t)
        ⟨['a'], some 0⟩ ⟨some ⟨⟨0, 0⟩, ⟨0, 0⟩⟩, ['b']⟩ .UTF32
      ≠ .ok ⟨['b', 'a'], some 0⟩ :=
  ⟨C6_amended_no_tree_tolerance.1 Nat (fun _ _ => none) ['x'] rfl,
   C6_amended_no_tree_tolerance.2.1 Nat (fun _ _ => none) (fun t _ => t)
     ⟨['a'], some 0⟩ ['b'] .UTF32,
   C6_amended_no_tree_tolerance.2.2 Nat (fun _ _ => none) (fun t _ => t)
     ⟨['a'], some 0⟩ ⟨some ⟨⟨0, 0⟩, ⟨0, 0⟩⟩, ['b']⟩ ⟨⟨0, 0⟩, ⟨0, 0⟩⟩ .UTF32
     ⟨['b', 'a'], some 0⟩ rfl rfl (fun _ _ => rfl)⟩

end Cql
